import Mathlib

/-!
Shallow embedding of `src/main.py` (SFDA data engine): the paginated fetch
coordinator `fetch_sfda_data`, the in-memory job store, and the HTTP boundary
handlers `start_job`, `job_status` and `download`.

Records fetched from the upstream are opaque to the coordinator (it only
appends them), so the embedding is polymorphic in the record type `α`.
The upstream is modelled as an oracle `u : Nat → FetchResult α`: for a page
number it either yields the parsed `results` list of the response body
(`FetchResult.success`, covering lines 60-68 of the source when no exception
is raised) or raises (`FetchResult.failure`, any exception caught at line 81:
HTTP error status after the retry budget, timeout, or a malformed body).

The job record is the dict created in `start_job` (lines 271-278); its
`last_updated` wall-clock field is omitted (real time is outside the
embedding).  Status values are the exact strings the source assigns.
Each mutation of the shared job dict produces one observable state; the
coordinator run is modelled as the list of those states (`trace`), since the
status endpoint may read the dict between any two mutations.
-/

/-- The job record dict of `start_job` (src/main.py lines 271-278), minus the
wall-clock `last_updated` field. -/
structure Job where
  status : String
  current_page : Nat
  total_pages : Nat
  message : String
  file : Option String
  deriving Repr, DecidableEq

/-- Outcome of one page fetch (src/main.py lines 60-68): either the parsed
`results` list of the JSON body, or an exception (caught at line 81). -/
inductive FetchResult (α : Type) where
  | success (results : List α)
  | failure
  deriving Repr, DecidableEq

/-- The coordinator's loop-local state: the shared job record plus the local
variables `all_data`, `processed_pages`, `failed_pages` (lines 33-35). -/
structure LoopState (α : Type) where
  job : Job
  all_data : List α
  processed_pages : Nat
  failed_pages : Nat
  deriving Repr, DecidableEq

/-- Result of running the page loop: final loop state, the observable job
states produced (one per mutation of the job dict, in order), the pages for
which a fetch was issued, and whether the loop ended via `break`. -/
structure LoopOut (α : Type) where
  state : LoopState α
  trace : List Job
  fetched : List Nat
  broke : Bool
  deriving Repr, DecidableEq

/-- `f"Fetching page {page} of {TOTAL_PAGES}"` (line 56). -/
def pageMessage (page total : Nat) : String :=
  "Fetching page " ++ toString page ++ " of " ++ toString total

/-- `f"Retrying page {page}..."` (line 84). -/
def retryMessage (page : Nat) : String :=
  "Retrying page " ++ toString page ++ "..."

/-- The job state after `job["current_page"] = page` (line 55). -/
def jobPage (j : Job) (page : Nat) : Job :=
  { j with current_page := page }

/-- The job state after line 55 followed by
`job["message"] = f"Fetching page {page} of {TOTAL_PAGES}"` (line 56). -/
def jobFetch (j : Job) (page : Nat) : Job :=
  { jobPage j page with message := pageMessage page j.total_pages }

/-- The job state after `job["message"] = f"Retrying page {page}..."`
(line 84), reached from `jobFetch` when the fetch raised. -/
def jobRetry (j : Job) (page : Nat) : Job :=
  { jobFetch j page with message := retryMessage page }

/-- One iteration of the page loop (src/main.py lines 52-86): set
`current_page` and `message`, fetch; on an empty `results` list `break`
(second component `true`); on records, extend `all_data` and continue; on an
exception, set the retry message, count the failure and continue.  The third
component is the list of observable job states this iteration produces. -/
def pageStep {α : Type} (u : Nat → FetchResult α) (page : Nat) (s : LoopState α) :
    LoopState α × Bool × List Job :=
  match u page with
  | FetchResult.success results =>
    if results.isEmpty then
      (⟨jobFetch s.job page, s.all_data, s.processed_pages, s.failed_pages⟩, true,
        [jobPage s.job page, jobFetch s.job page])
    else
      (⟨jobFetch s.job page, s.all_data ++ results, s.processed_pages + 1, s.failed_pages⟩, false,
        [jobPage s.job page, jobFetch s.job page])
  | FetchResult.failure =>
    (⟨jobRetry s.job page, s.all_data, s.processed_pages, s.failed_pages + 1⟩, false,
      [jobPage s.job page, jobFetch s.job page, jobRetry s.job page])

/-- The page loop `for page in range(1, TOTAL_PAGES + 1)` (line 52) over an
explicit list of page numbers, stopping early when an iteration breaks. -/
def runPages {α : Type} (u : Nat → FetchResult α) : List Nat → LoopState α → LoopOut α
  | [], s => ⟨s, [], [], false⟩
  | page :: rest, s =>
    let step := pageStep u page s
    if step.2.1 = true then ⟨step.1, step.2.2, [page], true⟩
    else
      let r := runPages u rest step.1
      ⟨r.state, step.2.2 ++ r.trace, page :: r.fetched, r.broke⟩

/-- `f"SFDA_Drugs_{job_id}.xlsx"` (line 88). -/
def exportFileName (job_id : String) : String :=
  "SFDA_Drugs_" ++ job_id ++ ".xlsx"

/-- Result of one whole coordinator run: the final job state, the exported
artifact's row list (`none` when the export step raised), the full list of
observable job states from creation on, the fetched pages, and the two
summary counters. -/
structure RunResult (α : Type) where
  final : Job
  artifact : Option (List α)
  trace : List Job
  fetched : List Nat
  processed_pages : Nat
  failed_pages : Nat
  deriving Repr, DecidableEq

/-- The job record created by `start_job` (lines 271-278). -/
def initJob (total_pages : Nat) : Job :=
  { status := "queued", current_page := 0, total_pages := total_pages,
    message := "Job queued", file := none }

/-- The job state after `job["status"] = "running"` (line 29). -/
def jobRunning (total_pages : Nat) : Job :=
  { initJob total_pages with status := "running" }

/-- The job state after line 29 followed by
`job["message"] = "Initializing request session..."` (line 30). -/
def jobSession (total_pages : Nat) : Job :=
  { jobRunning total_pages with message := "Initializing request session..." }

/-- The job state after `job["status"] = "completed"` (line 97), from the
state `j` the page loop left behind. -/
def jobCompleted (j : Job) : Job :=
  { j with status := "completed" }

/-- The job state after line 97 followed by `job["file"] = file_name`
(line 98). -/
def jobFiled (j : Job) (job_id : String) : Job :=
  { jobCompleted j with file := some (exportFileName job_id) }

/-- The job state after lines 97-98 followed by
`job["message"] = "Completed successfully"` (line 99). -/
def jobFinal (j : Job) (job_id : String) : Job :=
  { jobFiled j job_id with message := "Completed successfully" }

/-- The coordinator `fetch_sfda_data` (src/main.py lines 27-100), from the
job record just created by `start_job`: mark the job running, walk pages
`1..total_pages`, then export `all_data` and mark the job completed.
`exportOk` models whether `pd.DataFrame(all_data).to_excel(...)` (line 89)
succeeds; when it raises, the function aborts with the job record exactly as
the loop left it (no statement after line 89 runs). -/
def fetch_sfda_data {α : Type} (u : Nat → FetchResult α) (job_id : String)
    (total_pages : Nat) (exportOk : Bool) : RunResult α :=
  let r := runPages u (List.range' 1 total_pages)
    ⟨jobSession total_pages, [], 0, 0⟩
  if exportOk then
    ⟨jobFinal r.state.job job_id, some r.state.all_data,
      [initJob total_pages, jobRunning total_pages, jobSession total_pages] ++ r.trace ++
        [jobCompleted r.state.job, jobFiled r.state.job job_id, jobFinal r.state.job job_id],
      r.fetched, r.state.processed_pages, r.state.failed_pages⟩
  else
    ⟨r.state.job, none,
      [initJob total_pages, jobRunning total_pages, jobSession total_pages] ++ r.trace,
      r.fetched, r.state.processed_pages, r.state.failed_pages⟩

/-- `TOTAL_PAGES = 880` (line 17). -/
def TOTAL_PAGES : Nat := 880

/-- The process-wide job map `jobs = {}` (line 22), as a lookup function. -/
def Store : Type := String → Option Job

/-- What the `/status/{job_id}` handler returns: either the job record's
fields or the `{"error": "Invalid job id"}` payload. -/
inductive StatusPayload where
  | record (job : Job)
  | error (msg : String)
  deriving Repr, DecidableEq

/-- The `/start` handler (lines 268-280): insert a fresh queued job record
under the new id and return the id.  (The spawned coordinator thread is
modelled separately by `fetch_sfda_data`.) -/
def start_job (jobs : Store) (new_id : String) : Store × String :=
  (fun id => if id = new_id then some (initJob TOTAL_PAGES) else jobs id, new_id)

/-- The `/status/{job_id}` handler (lines 282-284):
`jobs.get(job_id, {"error": "Invalid job id"})`.  The handler performs no
store mutation, so the store component is returned unchanged. -/
def job_status (jobs : Store) (job_id : String) : StatusPayload × Store :=
  (match jobs job_id with
   | some j => StatusPayload.record j
   | none => StatusPayload.error "Invalid job id", jobs)

/-- What the `/download/{job_id}` handler returns: either a JSON error
payload or a `FileResponse` with a path, a declared filename and a media
type. -/
inductive DownloadResponse where
  | error (msg : String)
  | fileResponse (path : Option String) (filename : String) (media_type : String)
  deriving Repr, DecidableEq

/-- The fixed media type of the download response (line 294). -/
def SPREADSHEET_MIME : String :=
  "application/vnd.openxmlformats-officedocument.spreadsheetml.sheet"

/-- The `/download/{job_id}` handler (lines 286-295): unknown id or status
other than `"completed"` yields `{"error": "File not ready"}`; otherwise the
job's file is served under the fixed filename and spreadsheet media type. -/
def download (jobs : Store) (job_id : String) : DownloadResponse :=
  match jobs job_id with
  | none => DownloadResponse.error "File not ready"
  | some j =>
    if j.status = "completed" then
      DownloadResponse.fileResponse j.file "SFDA_Drugs_List.xlsx" SPREADSHEET_MIME
    else
      DownloadResponse.error "File not ready"

/-- The `urllib3.util.retry.Retry` configuration built at lines 38-45. -/
structure RetryPolicy where
  total : Nat
  connect : Nat
  read : Nat
  backoff_factor : Nat
  status_forcelist : List Nat
  allowed_methods : List String
  deriving Repr, DecidableEq

/-- The retry configuration mounted on the session (src/main.py lines 38-48). -/
def retries : RetryPolicy :=
  { total := 5, connect := 5, read := 5, backoff_factor := 2,
    status_forcelist := [429, 500, 502, 503, 504],
    allowed_methods := ["GET"] }

/-- Whether the configured policy retries a response: the request method must
be in `allowed_methods` and the status in `status_forcelist`. -/
def RetryPolicy.retriesStatus (p : RetryPolicy) (method : String) (status : Nat) : Bool :=
  p.allowed_methods.contains method && p.status_forcelist.contains status

/-- The per-request `timeout=30` passed to `session.get` (line 63). -/
def REQUEST_TIMEOUT : Nat := 30

/-- The parsed `results` list a page fetch contributes (empty on failure). -/
def pageResults {α : Type} (u : Nat → FetchResult α) (x : Nat) : List α :=
  match u x with
  | FetchResult.success l => l
  | FetchResult.failure => []

/-- Whether fetching page `x` hits the `break` condition of line 70: a
successful response whose `results` list is empty. -/
def isEmptyPage {α : Type} (u : Nat → FetchResult α) (x : Nat) : Bool :=
  match u x with
  | FetchResult.success l => l.isEmpty
  | FetchResult.failure => false

@[simp] theorem jobPage_status (j : Job) (page : Nat) : (jobPage j page).status = j.status := rfl

@[simp] theorem jobPage_current_page (j : Job) (page : Nat) :
    (jobPage j page).current_page = page := rfl

@[simp] theorem jobPage_total_pages (j : Job) (page : Nat) :
    (jobPage j page).total_pages = j.total_pages := rfl

@[simp] theorem jobPage_file (j : Job) (page : Nat) : (jobPage j page).file = j.file := rfl

@[simp] theorem jobFetch_status (j : Job) (page : Nat) : (jobFetch j page).status = j.status := rfl

@[simp] theorem jobFetch_current_page (j : Job) (page : Nat) :
    (jobFetch j page).current_page = page := rfl

@[simp] theorem jobFetch_total_pages (j : Job) (page : Nat) :
    (jobFetch j page).total_pages = j.total_pages := rfl

@[simp] theorem jobFetch_file (j : Job) (page : Nat) : (jobFetch j page).file = j.file := rfl

@[simp] theorem jobRetry_status (j : Job) (page : Nat) : (jobRetry j page).status = j.status := rfl

@[simp] theorem jobRetry_current_page (j : Job) (page : Nat) :
    (jobRetry j page).current_page = page := rfl

@[simp] theorem jobRetry_total_pages (j : Job) (page : Nat) :
    (jobRetry j page).total_pages = j.total_pages := rfl

@[simp] theorem jobRetry_file (j : Job) (page : Nat) : (jobRetry j page).file = j.file := rfl

@[simp] theorem runPages_nil {α : Type} (u : Nat → FetchResult α) (s : LoopState α) :
    runPages u [] s = ⟨s, [], [], false⟩ := rfl

theorem runPages_cons_break {α : Type} (u : Nat → FetchResult α) (page : Nat)
    (rest : List Nat) (s s1 : LoopState α) (tr : List Job)
    (h : pageStep u page s = (s1, true, tr)) :
    runPages u (page :: rest) s = ⟨s1, tr, [page], true⟩ := by
  simp [runPages, h]

theorem runPages_cons_continue {α : Type} (u : Nat → FetchResult α) (page : Nat)
    (rest : List Nat) (s s1 : LoopState α) (tr : List Job)
    (h : pageStep u page s = (s1, false, tr)) :
    runPages u (page :: rest) s =
      ⟨(runPages u rest s1).state, tr ++ (runPages u rest s1).trace,
        page :: (runPages u rest s1).fetched, (runPages u rest s1).broke⟩ := by
  simp [runPages, h]

/-- Loop invariant of `runPages` over a contiguous page range: the loop never
touches `total_pages`, `status` or `file`; `current_page` values in the trace
are the visited pages, so they stay in the range, never decrease, and are
bounded by the final `current_page`. -/
theorem runPages_inv {α : Type} (u : Nat → FetchResult α) :
    ∀ (n p : Nat) (s : LoopState α), s.job.current_page < p →
    ∀ r, runPages u (List.range' p n) s = r →
    (r.state.job.total_pages = s.job.total_pages ∧
     r.state.job.status = s.job.status ∧
     r.state.job.file = s.job.file) ∧
    (s.job.current_page ≤ r.state.job.current_page ∧
     r.state.job.current_page < p + n) ∧
    (∀ j ∈ r.trace,
      (j.total_pages = s.job.total_pages ∧ j.status = s.job.status ∧ j.file = s.job.file) ∧
      p ≤ j.current_page ∧ j.current_page ≤ r.state.job.current_page) ∧
    List.Pairwise (fun a b => a.current_page ≤ b.current_page) r.trace := by
  intro n
  induction n with
  | zero =>
    intro p s hcp r hr
    subst hr
    simp [runPages, List.range']
    omega
  | succ n ih =>
    intro p s hcp r hr
    rw [List.range'_succ] at hr
    cases hu : u p with
    | success results =>
      by_cases hres : results.isEmpty
      · have hstep : pageStep u p s =
            (⟨jobFetch s.job p, s.all_data, s.processed_pages, s.failed_pages⟩, true,
              [jobPage s.job p, jobFetch s.job p]) := by
          simp [pageStep, hu, hres]
        rw [runPages_cons_break u p _ s _ _ hstep] at hr
        subst hr
        refine ⟨⟨rfl, rfl, rfl⟩, ⟨by simp <;> omega, by simp <;> omega⟩, ?_, ?_⟩
        · intro j hj
          rcases List.mem_cons.mp hj with h | h
          · subst h; exact ⟨⟨rfl, rfl, rfl⟩, by simp, by simp⟩
          · rcases List.mem_cons.mp h with h2 | h2
            · subst h2; exact ⟨⟨rfl, rfl, rfl⟩, by simp, by simp⟩
            · simp at h2
        · simp [List.pairwise_cons]
      · have hstep : pageStep u p s =
            (⟨jobFetch s.job p, s.all_data ++ results, s.processed_pages + 1, s.failed_pages⟩,
              false, [jobPage s.job p, jobFetch s.job p]) := by
          simp [pageStep, hu, hres]
        rw [runPages_cons_continue u p _ s _ _ hstep] at hr
        subst hr
        obtain ⟨⟨h1, h2, h3⟩, ⟨h4, h5⟩, h6, h7⟩ :=
          ih (p + 1)
            ⟨jobFetch s.job p, s.all_data ++ results, s.processed_pages + 1, s.failed_pages⟩
            (by simp) _ rfl
        simp only at h1 h2 h3 h4 h5
        refine ⟨⟨by simp [h1], by simp [h2], by simp [h3]⟩,
          ⟨by simp at h4 ⊢ <;> omega, by simp <;> omega⟩, ?_, ?_⟩
        · intro j hj
          rcases List.mem_append.mp hj with h | h
          · rcases List.mem_cons.mp h with h9 | h9
            · subst h9
              refine ⟨⟨rfl, rfl, rfl⟩, by simp, ?_⟩
              simp at h4 ⊢ <;> omega
            · rcases List.mem_cons.mp h9 with h8 | h8
              · subst h8
                refine ⟨⟨rfl, rfl, rfl⟩, by simp, ?_⟩
                simp at h4 ⊢ <;> omega
              · simp at h8
          · obtain ⟨⟨g1, g2, g3⟩, g4, g5⟩ := h6 j h
            simp only at g1 g2 g3
            refine ⟨⟨by simp [g1], by simp [g2], by simp [g3]⟩, by omega, ?_⟩
            simpa using g5
        · rw [List.pairwise_append]
          refine ⟨by simp [List.pairwise_cons], h7, ?_⟩
          intro a ha b hb
          obtain ⟨_, g4, _⟩ := h6 b hb
          rcases List.mem_cons.mp ha with h | h
          · subst h; simp <;> omega
          · rcases List.mem_cons.mp h with h2 | h2
            · subst h2; simp <;> omega
            · simp at h2
    | failure =>
      have hstep : pageStep u p s =
          (⟨jobRetry s.job p, s.all_data, s.processed_pages, s.failed_pages + 1⟩,
            false, [jobPage s.job p, jobFetch s.job p, jobRetry s.job p]) := by
        simp [pageStep, hu]
      rw [runPages_cons_continue u p _ s _ _ hstep] at hr
      subst hr
      obtain ⟨⟨h1, h2, h3⟩, ⟨h4, h5⟩, h6, h7⟩ :=
        ih (p + 1)
          ⟨jobRetry s.job p, s.all_data, s.processed_pages, s.failed_pages + 1⟩
          (by simp) _ rfl
      simp only at h1 h2 h3 h4 h5
      refine ⟨⟨by simp [h1], by simp [h2], by simp [h3]⟩,
        ⟨by simp at h4 ⊢ <;> omega, by simp <;> omega⟩, ?_, ?_⟩
      · intro j hj
        rcases List.mem_append.mp hj with h | h
        · have : j = jobPage s.job p ∨ j = jobFetch s.job p ∨ j = jobRetry s.job p := by
            simpa using h
          rcases this with h9 | h9 | h9 <;>
            · subst h9
              refine ⟨⟨rfl, rfl, rfl⟩, by simp, ?_⟩
              simp at h4 ⊢ <;> omega
        · obtain ⟨⟨g1, g2, g3⟩, g4, g5⟩ := h6 j h
          simp only at g1 g2 g3
          exact ⟨⟨by simp [g1], by simp [g2], by simp [g3]⟩, by omega, g5⟩
      · rw [List.pairwise_append]
        refine ⟨by simp [List.pairwise_cons], h7, ?_⟩
        intro a ha b hb
        obtain ⟨_, g4, _⟩ := h6 b hb
        have : a = jobPage s.job p ∨ a = jobFetch s.job p ∨ a = jobRetry s.job p := by
          simpa using ha
        rcases this with h | h | h <;>
          · subst h; simp <;> omega

/-- When no page in `ps` triggers the empty-results `break`, the loop visits
every page of `ps` in order, never breaks, and extends `all_data` by the
concatenation of the fetched `results` lists in page order. -/
theorem runPages_noBreak {α : Type} (u : Nat → FetchResult α) :
    ∀ (ps : List Nat) (s : LoopState α),
    (∀ x ∈ ps, isEmptyPage u x = false) →
    (runPages u ps s).state.all_data = s.all_data ++ ps.flatMap (pageResults u) ∧
    (runPages u ps s).fetched = ps ∧
    (runPages u ps s).broke = false ∧
    (runPages u ps s).state.failed_pages =
      s.failed_pages + (ps.filter (fun x => !(isEmptyPage u x) && (pageResults u x).isEmpty)).length := by
  intro ps
  induction ps with
  | nil => intro s h; simp
  | cons x rest ih =>
    intro s h
    have hx : isEmptyPage u x = false := h x (List.mem_cons_self x rest)
    have hrest : ∀ y ∈ rest, isEmptyPage u y = false :=
      fun y hy => h y (List.mem_cons_of_mem x hy)
    cases hu : u x with
    | success results =>
      have hres : results.isEmpty = false := by
        simpa [isEmptyPage, hu] using hx
      have hstep : pageStep u x s =
          (⟨jobFetch s.job x, s.all_data ++ results, s.processed_pages + 1, s.failed_pages⟩,
            false, [jobPage s.job x, jobFetch s.job x]) := by
        simp [pageStep, hu, hres]
      rw [runPages_cons_continue u x rest s _ _ hstep]
      obtain ⟨ih1, ih2, ih3, ih4⟩ :=
        ih ⟨jobFetch s.job x, s.all_data ++ results, s.processed_pages + 1, s.failed_pages⟩ hrest
      refine ⟨?_, by simp [ih2], by simp [ih3], ?_⟩
      · simp only [ih1]
        simp [pageResults, hu, List.append_assoc]
      · simp only [ih4]
        simp [List.filter_cons, isEmptyPage, pageResults, hu, hres]
    | failure =>
      have hstep : pageStep u x s =
          (⟨jobRetry s.job x, s.all_data, s.processed_pages, s.failed_pages + 1⟩,
            false, [jobPage s.job x, jobFetch s.job x, jobRetry s.job x]) := by
        simp [pageStep, hu]
      rw [runPages_cons_continue u x rest s _ _ hstep]
      obtain ⟨ih1, ih2, ih3, ih4⟩ :=
        ih ⟨jobRetry s.job x, s.all_data, s.processed_pages, s.failed_pages + 1⟩ hrest
      refine ⟨?_, by simp [ih2], by simp [ih3], ?_⟩
      · simp only [ih1]
        simp [pageResults, hu]
      · simp only [ih4]
        simp [List.filter_cons, isEmptyPage, pageResults, hu]
        omega

/-- When the pages before `e` never trigger the empty-results `break` and
page `e` does, the loop fetches exactly `xs ++ [e]`, breaks there, and ends
with `all_data` extended by the records of `xs` in page order; the pages
after `e` are never fetched. -/
theorem runPages_break {α : Type} (u : Nat → FetchResult α) :
    ∀ (xs : List Nat) (e : Nat) (rest : List Nat) (s : LoopState α),
    (∀ x ∈ xs, isEmptyPage u x = false) →
    isEmptyPage u e = true →
    (runPages u (xs ++ e :: rest) s).state.all_data = s.all_data ++ xs.flatMap (pageResults u) ∧
    (runPages u (xs ++ e :: rest) s).fetched = xs ++ [e] ∧
    (runPages u (xs ++ e :: rest) s).broke = true := by
  intro xs
  induction xs with
  | nil =>
    intro e rest s _ he
    obtain ⟨l, hl, hle⟩ : ∃ l, u e = FetchResult.success l ∧ l.isEmpty = true := by
      cases hu : u e with
      | success l => exact ⟨l, rfl, by simpa [isEmptyPage, hu] using he⟩
      | failure => simp [isEmptyPage, hu] at he
    have hstep : pageStep u e s =
        (⟨jobFetch s.job e, s.all_data, s.processed_pages, s.failed_pages⟩, true,
          [jobPage s.job e, jobFetch s.job e]) := by
      simp [pageStep, hl, hle]
    rw [List.nil_append, runPages_cons_break u e rest s _ _ hstep]
    simp
  | cons x xs ih =>
    intro e rest s h he
    have hx : isEmptyPage u x = false := h x (List.mem_cons_self x xs)
    have hxs : ∀ y ∈ xs, isEmptyPage u y = false :=
      fun y hy => h y (List.mem_cons_of_mem x hy)
    cases hu : u x with
    | success results =>
      have hres : results.isEmpty = false := by
        simpa [isEmptyPage, hu] using hx
      have hstep : pageStep u x s =
          (⟨jobFetch s.job x, s.all_data ++ results, s.processed_pages + 1, s.failed_pages⟩,
            false, [jobPage s.job x, jobFetch s.job x]) := by
        simp [pageStep, hu, hres]
      rw [List.cons_append, runPages_cons_continue u x _ s _ _ hstep]
      obtain ⟨ih1, ih2, ih3⟩ :=
        ih e rest ⟨jobFetch s.job x, s.all_data ++ results, s.processed_pages + 1, s.failed_pages⟩
          hxs he
      refine ⟨?_, by simp [ih2], by simp [ih3]⟩
      simp only [ih1]
      simp [pageResults, hu, List.append_assoc]
    | failure =>
      have hstep : pageStep u x s =
          (⟨jobRetry s.job x, s.all_data, s.processed_pages, s.failed_pages + 1⟩,
            false, [jobPage s.job x, jobFetch s.job x, jobRetry s.job x]) := by
        simp [pageStep, hu]
      rw [List.cons_append, runPages_cons_continue u x _ s _ _ hstep]
      obtain ⟨ih1, ih2, ih3⟩ :=
        ih e rest ⟨jobRetry s.job x, s.all_data, s.processed_pages, s.failed_pages + 1⟩ hxs he
      refine ⟨?_, by simp [ih2], by simp [ih3]⟩
      simp only [ih1]
      simp [pageResults, hu]

/-- Pointwise description of a flatMap that drops exactly the pages equal to
`p`: it equals the flatMap of `f` over the other pages. -/
theorem flatMap_eq_filter {α : Type} (f : Nat → List α) (p : Nat) :
    ∀ (ps : List Nat) (g : Nat → List α),
    (∀ x ∈ ps, g x = if x = p then [] else f x) →
    ps.flatMap g = (ps.filter (fun x => x != p)).flatMap f := by
  intro ps
  induction ps with
  | nil => intro g _; simp
  | cons x rest ih =>
    intro g h
    have hx := h x (List.mem_cons_self x rest)
    have hrest := fun y hy => h y (List.mem_cons_of_mem x hy)
    by_cases hxp : x = p
    · subst hxp
      simp [List.filter_cons, hx, ih g hrest]
    · simp [List.filter_cons, hxp, hx, ih g hrest]

@[simp] theorem initJob_status (T : Nat) : (initJob T).status = "queued" := rfl

@[simp] theorem initJob_current_page (T : Nat) : (initJob T).current_page = 0 := rfl

@[simp] theorem initJob_total_pages (T : Nat) : (initJob T).total_pages = T := rfl

@[simp] theorem initJob_file (T : Nat) : (initJob T).file = none := rfl

@[simp] theorem jobRunning_status (T : Nat) : (jobRunning T).status = "running" := rfl

@[simp] theorem jobRunning_current_page (T : Nat) : (jobRunning T).current_page = 0 := rfl

@[simp] theorem jobRunning_total_pages (T : Nat) : (jobRunning T).total_pages = T := rfl

@[simp] theorem jobRunning_file (T : Nat) : (jobRunning T).file = none := rfl

@[simp] theorem jobSession_status (T : Nat) : (jobSession T).status = "running" := rfl

@[simp] theorem jobSession_current_page (T : Nat) : (jobSession T).current_page = 0 := rfl

@[simp] theorem jobSession_total_pages (T : Nat) : (jobSession T).total_pages = T := rfl

@[simp] theorem jobSession_file (T : Nat) : (jobSession T).file = none := rfl

@[simp] theorem jobCompleted_status (j : Job) : (jobCompleted j).status = "completed" := rfl

@[simp] theorem jobCompleted_current_page (j : Job) :
    (jobCompleted j).current_page = j.current_page := rfl

@[simp] theorem jobCompleted_total_pages (j : Job) :
    (jobCompleted j).total_pages = j.total_pages := rfl

@[simp] theorem jobCompleted_file (j : Job) : (jobCompleted j).file = j.file := rfl

@[simp] theorem jobFiled_status (j : Job) (i : String) : (jobFiled j i).status = "completed" := rfl

@[simp] theorem jobFiled_current_page (j : Job) (i : String) :
    (jobFiled j i).current_page = j.current_page := rfl

@[simp] theorem jobFiled_total_pages (j : Job) (i : String) :
    (jobFiled j i).total_pages = j.total_pages := rfl

@[simp] theorem jobFiled_file (j : Job) (i : String) :
    (jobFiled j i).file = some (exportFileName i) := rfl

@[simp] theorem jobFinal_status (j : Job) (i : String) : (jobFinal j i).status = "completed" := rfl

@[simp] theorem jobFinal_current_page (j : Job) (i : String) :
    (jobFinal j i).current_page = j.current_page := rfl

@[simp] theorem jobFinal_total_pages (j : Job) (i : String) :
    (jobFinal j i).total_pages = j.total_pages := rfl

@[simp] theorem jobFinal_file (j : Job) (i : String) :
    (jobFinal j i).file = some (exportFileName i) := rfl

/-- Unfolding of a coordinator run whose export step succeeds. -/
theorem fetch_sfda_data_true_eq {α : Type} (u : Nat → FetchResult α) (job_id : String)
    (T : Nat) :
    fetch_sfda_data u job_id T true =
      ⟨jobFinal (runPages u (List.range' 1 T) ⟨jobSession T, [], 0, 0⟩).state.job job_id,
        some (runPages u (List.range' 1 T) ⟨jobSession T, [], 0, 0⟩).state.all_data,
        [initJob T, jobRunning T, jobSession T] ++
          (runPages u (List.range' 1 T) ⟨jobSession T, [], 0, 0⟩).trace ++
          [jobCompleted (runPages u (List.range' 1 T) ⟨jobSession T, [], 0, 0⟩).state.job,
            jobFiled (runPages u (List.range' 1 T) ⟨jobSession T, [], 0, 0⟩).state.job job_id,
            jobFinal (runPages u (List.range' 1 T) ⟨jobSession T, [], 0, 0⟩).state.job job_id],
        (runPages u (List.range' 1 T) ⟨jobSession T, [], 0, 0⟩).fetched,
        (runPages u (List.range' 1 T) ⟨jobSession T, [], 0, 0⟩).state.processed_pages,
        (runPages u (List.range' 1 T) ⟨jobSession T, [], 0, 0⟩).state.failed_pages⟩ := rfl

/-- Unfolding of a coordinator run whose export step raises. -/
theorem fetch_sfda_data_false_eq {α : Type} (u : Nat → FetchResult α) (job_id : String)
    (T : Nat) :
    fetch_sfda_data u job_id T false =
      ⟨(runPages u (List.range' 1 T) ⟨jobSession T, [], 0, 0⟩).state.job,
        none,
        [initJob T, jobRunning T, jobSession T] ++
          (runPages u (List.range' 1 T) ⟨jobSession T, [], 0, 0⟩).trace,
        (runPages u (List.range' 1 T) ⟨jobSession T, [], 0, 0⟩).fetched,
        (runPages u (List.range' 1 T) ⟨jobSession T, [], 0, 0⟩).state.processed_pages,
        (runPages u (List.range' 1 T) ⟨jobSession T, [], 0, 0⟩).state.failed_pages⟩ := rfl

/-- Concatenation over a list of pages only depends on the per-page values. -/
theorem flatMap_congr_on {α : Type} :
    ∀ (ps : List Nat) (g f : Nat → List α), (∀ x ∈ ps, g x = f x) →
    ps.flatMap g = ps.flatMap f := by
  intro ps
  induction ps with
  | nil => intro g f _; rfl
  | cons x rest ih =>
    intro g f h
    simp [List.flatMap_cons, h x (List.mem_cons_self x rest),
      ih g f (fun y hy => h y (List.mem_cons_of_mem x hy))]

/-- Splitting the page range at the first empty page. -/
theorem range'_split (k T : Nat) (hk : k + 1 ≤ T) :
    List.range' 1 T = List.range' 1 k ++ (k + 1) :: List.range' (k + 2) (T - (k + 1)) := by
  have ha := List.range'_append 1 k (T - k) 1
  rw [show 1 + 1 * k = k + 1 from by omega, show T - k + k = T from by omega] at ha
  have hb := List.range'_succ (k + 1) (T - (k + 1)) 1
  rw [show T - (k + 1) + 1 = T - k from by omega] at hb
  rw [← ha, hb]

/-- C1: when the upstream returns non-empty record batches for pages `1..k`
and an empty `results` array at page `k+1 ≤ total_pages`, the loop stops at
page `k+1` (no later page is fetched), the job ends with status
`"completed"`, and the exported artifact is exactly the concatenation of the
records of pages `1..k` in page order. -/
theorem C1_empty_page_ends_run {α : Type} (u : Nat → FetchResult α) (f : Nat → List α)
    (job_id : String) (T k : Nat)
    (hk : k + 1 ≤ T)
    (hsucc : ∀ i, 1 ≤ i → i ≤ k → u i = FetchResult.success (f i) ∧ f i ≠ [])
    (hempty : u (k + 1) = FetchResult.success []) :
    (fetch_sfda_data u job_id T true).final.status = "completed" ∧
    (fetch_sfda_data u job_id T true).fetched = List.range' 1 (k + 1) ∧
    (fetch_sfda_data u job_id T true).artifact = some ((List.range' 1 k).flatMap f) := by
  have hxs : ∀ x ∈ List.range' 1 k, isEmptyPage u x = false := by
    intro x hx
    rw [List.mem_range'_1] at hx
    obtain ⟨hu, hne⟩ := hsucc x hx.1 (by omega)
    cases hf : f x with
    | nil => exact absurd hf hne
    | cons a l => simp [isEmptyPage, hu, hf]
  have he : isEmptyPage u (k + 1) = true := by simp [isEmptyPage, hempty]
  obtain ⟨h1, h2, h3⟩ := runPages_break u (List.range' 1 k) (k + 1)
    (List.range' (k + 2) (T - (k + 1))) ⟨jobSession T, [], 0, 0⟩ hxs he
  rw [fetch_sfda_data_true_eq, range'_split k T hk]
  refine ⟨by simp, ?_, ?_⟩
  · simp only [h2]
    have hc : List.range' 1 (k + 1) 1 = List.range' 1 k 1 ++ [1 + 1 * k] :=
      List.range'_concat 1 k
    rw [show 1 + 1 * k = k + 1 from by omega] at hc
    rw [hc]
  · simp only [h1]
    have : (List.range' 1 k).flatMap (pageResults u) = (List.range' 1 k).flatMap f := by
      apply flatMap_congr_on
      intro x hx
      rw [List.mem_range'_1] at hx
      obtain ⟨hu, _⟩ := hsucc x hx.1 (by omega)
      simp [pageResults, hu]
    simp [this]

/-- Every observable job state of a coordinator run has one of the three
status strings the source ever assigns, carries the fixed `total_pages`,
keeps `current_page` within the page bound, and has its `file` field set
only in completed states (and then to the per-job export file name). -/
theorem fetch_trace_mem {α : Type} (u : Nat → FetchResult α) (job_id : String)
    (T : Nat) (eo : Bool) :
    ∀ j ∈ (fetch_sfda_data u job_id T eo).trace,
      (j.status = "queued" ∨ j.status = "running" ∨ j.status = "completed") ∧
      (eo = false → (j.status = "queued" ∨ j.status = "running")) ∧
      j.total_pages = T ∧
      j.current_page ≤ T ∧
      (j.file ≠ none → (j.status = "completed" ∧ j.file = some (exportFileName job_id))) := by
  obtain ⟨⟨ht, hs, hf⟩, ⟨hcp1, hcp2⟩, htr, hpw⟩ :=
    runPages_inv u T 1 ⟨jobSession T, [], 0, 0⟩ (by simp) _ rfl
  simp only [jobSession_total_pages, jobSession_status, jobSession_file] at ht hs hf
  intro j hj
  cases eo with
  | true =>
    rw [fetch_sfda_data_true_eq] at hj
    rcases List.mem_append.mp hj with h | h
    · rcases List.mem_append.mp h with h0 | h0
      · have hin : j = initJob T ∨ j = jobRunning T ∨ j = jobSession T := by simpa using h0
        rcases hin with h1 | h1 | h1 <;> subst h1
        · refine ⟨Or.inl (by simp), fun _ => Or.inl (by simp), by simp, by simp, ?_⟩
          intro hne
          simp at hne
        · refine ⟨Or.inr (Or.inl (by simp)), fun _ => Or.inr (by simp), by simp, by simp, ?_⟩
          intro hne
          simp at hne
        · refine ⟨Or.inr (Or.inl (by simp)), fun _ => Or.inr (by simp), by simp, by simp, ?_⟩
          intro hne
          simp at hne
      · obtain ⟨⟨g1, g2, g3⟩, g4, g5⟩ := htr j h0
        simp only [jobSession_total_pages, jobSession_status, jobSession_file] at g1 g2 g3
        refine ⟨Or.inr (Or.inl g2), ?_, g1, ?_, ?_⟩
        · intro heo
          cases heo
        · omega
        · intro hne
          exact absurd g3 hne
    · have hin : j = jobCompleted (runPages u (List.range' 1 T)
            ⟨jobSession T, [], 0, 0⟩).state.job ∨
          j = jobFiled (runPages u (List.range' 1 T) ⟨jobSession T, [], 0, 0⟩).state.job job_id ∨
          j = jobFinal (runPages u (List.range' 1 T) ⟨jobSession T, [], 0, 0⟩).state.job job_id := by
        simpa using h
      rcases hin with h1 | h1 | h1 <;> subst h1
      · refine ⟨Or.inr (Or.inr (by simp)), ?_, by simp [ht], ?_, ?_⟩
        · intro heo
          cases heo
        · simp
          omega
        · intro hne
          simp only [jobCompleted_file] at hne
          exact absurd hf hne
      · refine ⟨Or.inr (Or.inr (by simp)), ?_, by simp [ht], ?_, ?_⟩
        · intro heo
          cases heo
        · simp
          omega
        · intro _
          exact ⟨by simp, by simp⟩
      · refine ⟨Or.inr (Or.inr (by simp)), ?_, by simp [ht], ?_, ?_⟩
        · intro heo
          cases heo
        · simp
          omega
        · intro _
          exact ⟨by simp, by simp⟩
  | false =>
    rw [fetch_sfda_data_false_eq] at hj
    rcases List.mem_append.mp hj with h0 | h0
    · have hin : j = initJob T ∨ j = jobRunning T ∨ j = jobSession T := by simpa using h0
      rcases hin with h1 | h1 | h1 <;> subst h1
      · refine ⟨Or.inl (by simp), fun _ => Or.inl (by simp), by simp, by simp, ?_⟩
        intro hne
        simp at hne
      · refine ⟨Or.inr (Or.inl (by simp)), fun _ => Or.inr (by simp), by simp, by simp, ?_⟩
        intro hne
        simp at hne
      · refine ⟨Or.inr (Or.inl (by simp)), fun _ => Or.inr (by simp), by simp, by simp, ?_⟩
        intro hne
        simp at hne
    · obtain ⟨⟨g1, g2, g3⟩, g4, g5⟩ := htr j h0
      simp only [jobSession_total_pages, jobSession_status, jobSession_file] at g1 g2 g3
      refine ⟨Or.inr (Or.inl g2), fun _ => Or.inr g2, g1, ?_, ?_⟩
      · omega
      · intro hne
        exact absurd g3 hne

/-- The `current_page` values along the observable states of a run never
decrease. -/
theorem fetch_trace_pairwise {α : Type} (u : Nat → FetchResult α) (job_id : String)
    (T : Nat) (eo : Bool) :
    List.Pairwise (fun a b => a.current_page ≤ b.current_page)
      (fetch_sfda_data u job_id T eo).trace := by
  obtain ⟨⟨ht, hs, hf⟩, ⟨hcp1, hcp2⟩, htr, hpw⟩ :=
    runPages_inv u T 1 ⟨jobSession T, [], 0, 0⟩ (by simp) _ rfl
  have hpre : List.Pairwise (fun a b => a.current_page ≤ b.current_page)
      ([initJob T, jobRunning T, jobSession T] ++
        (runPages u (List.range' 1 T) ⟨jobSession T, [], 0, 0⟩).trace) := by
    rw [List.pairwise_append]
    refine ⟨by simp [List.pairwise_cons], hpw, ?_⟩
    intro a ha b hb
    have hin : a = initJob T ∨ a = jobRunning T ∨ a = jobSession T := by simpa using ha
    rcases hin with h | h | h <;> subst h <;> simp
  cases eo with
  | true =>
    rw [fetch_sfda_data_true_eq, List.pairwise_append]
    refine ⟨hpre, by simp [List.pairwise_cons], ?_⟩
    intro a ha b hb
    have hb3 : b.current_page =
        (runPages u (List.range' 1 T) ⟨jobSession T, [], 0, 0⟩).state.job.current_page := by
      have hin : b = jobCompleted (runPages u (List.range' 1 T)
            ⟨jobSession T, [], 0, 0⟩).state.job ∨
          b = jobFiled (runPages u (List.range' 1 T) ⟨jobSession T, [], 0, 0⟩).state.job job_id ∨
          b = jobFinal (runPages u (List.range' 1 T) ⟨jobSession T, [], 0, 0⟩).state.job job_id := by
        simpa using hb
      rcases hin with h | h | h <;> subst h <;> simp
    rw [hb3]
    rcases List.mem_append.mp ha with h0 | h0
    · have hin : a = initJob T ∨ a = jobRunning T ∨ a = jobSession T := by simpa using h0
      rcases hin with h | h | h <;> subst h <;> simp
    · exact (htr a h0).2.2
  | false =>
    rw [fetch_sfda_data_false_eq]
    exact hpre

/-- The first observable state of a run is the queued record `start_job`
created, with `current_page = 0`. -/
theorem fetch_trace_head {α : Type} (u : Nat → FetchResult α) (job_id : String)
    (T : Nat) (eo : Bool) :
    (fetch_sfda_data u job_id T eo).trace.head? = some (initJob T) := by
  cases eo with
  | true =>
    rw [fetch_sfda_data_true_eq]
    rfl
  | false =>
    rw [fetch_sfda_data_false_eq]
    rfl

/-- Witness for C1 at the spec's own test vector: pages 1-3 non-empty,
page 4 empty, `totalPages = 10`. -/
theorem C1_empty_page_ends_run_witness :
    (fetch_sfda_data (fun i => if i ≤ 3 then FetchResult.success [i]
        else if i = 4 then FetchResult.success ([] : List Nat)
        else FetchResult.success [99]) "w1" 10 true).final.status = "completed" ∧
    (fetch_sfda_data (fun i => if i ≤ 3 then FetchResult.success [i]
        else if i = 4 then FetchResult.success ([] : List Nat)
        else FetchResult.success [99]) "w1" 10 true).fetched = List.range' 1 (3 + 1) ∧
    (fetch_sfda_data (fun i => if i ≤ 3 then FetchResult.success [i]
        else if i = 4 then FetchResult.success ([] : List Nat)
        else FetchResult.success [99]) "w1" 10 true).artifact =
      some ((List.range' 1 3).flatMap (fun i => [i])) := by
  exact C1_empty_page_ends_run
    (fun i => if i ≤ 3 then FetchResult.success [i]
      else if i = 4 then FetchResult.success ([] : List Nat)
      else FetchResult.success [99])
    (fun i => [i]) "w1" 10 3 (by omega)
    (by
      intro i h1 h2
      refine ⟨?_, by simp⟩
      simp only []
      rw [if_pos h2])
    (by decide)

/-- C2: when fetching page `p` fails (its whole retry budget exhausted is one
caught exception here) and every other page up to `total_pages` returns
non-empty records, the loop still visits every page exactly once in order
(abandoning `p`, not retrying it and not aborting), the job ends completed,
and the artifact holds the records of all pages except `p`, in page order. -/
theorem C2_failed_page_abandoned {α : Type} (u : Nat → FetchResult α) (f : Nat → List α)
    (job_id : String) (T p : Nat)
    (hp1 : 1 ≤ p) (hpT : p ≤ T)
    (hfail : u p = FetchResult.failure)
    (hsucc : ∀ i, 1 ≤ i → i ≤ T → i ≠ p → u i = FetchResult.success (f i) ∧ f i ≠ []) :
    (fetch_sfda_data u job_id T true).final.status = "completed" ∧
    (fetch_sfda_data u job_id T true).fetched = List.range' 1 T ∧
    (fetch_sfda_data u job_id T true).artifact =
      some (((List.range' 1 T).filter (fun i => i != p)).flatMap f) := by
  have hall : ∀ x ∈ List.range' 1 T, isEmptyPage u x = false := by
    intro x hx
    rw [List.mem_range'_1] at hx
    by_cases hxp : x = p
    · subst hxp
      simp [isEmptyPage, hfail]
    · obtain ⟨hu, hne⟩ := hsucc x hx.1 (by omega) hxp
      cases hf : f x with
      | nil => exact absurd hf hne
      | cons a l => simp [isEmptyPage, hu, hf]
  obtain ⟨h1, h2, h3, _⟩ := runPages_noBreak u (List.range' 1 T) ⟨jobSession T, [], 0, 0⟩ hall
  rw [fetch_sfda_data_true_eq]
  refine ⟨by simp, by simp [h2], ?_⟩
  simp only [h1]
  have hconv : (List.range' 1 T).flatMap (pageResults u) =
      ((List.range' 1 T).filter (fun i => i != p)).flatMap f := by
    apply flatMap_eq_filter f p
    intro x hx
    rw [List.mem_range'_1] at hx
    by_cases hxp : x = p
    · subst hxp
      simp [pageResults, hfail]
    · obtain ⟨hu, _⟩ := hsucc x hx.1 (by omega) hxp
      simp [pageResults, hu, hxp]
  simp [hconv]

/-- Witness for C2 at the spec's own test vector: page 2 fails on every
attempt, pages 1 and 3 succeed, `totalPages = 3`. -/
theorem C2_failed_page_abandoned_witness :
    (fetch_sfda_data (fun i => if i = 2 then FetchResult.failure
        else FetchResult.success [i]) "w2" 3 true).final.status = "completed" ∧
    (fetch_sfda_data (fun i => if i = 2 then FetchResult.failure
        else FetchResult.success [i]) "w2" 3 true).fetched = List.range' 1 3 ∧
    (fetch_sfda_data (fun i => if i = 2 then FetchResult.failure
        else FetchResult.success [i]) "w2" 3 true).artifact =
      some (((List.range' 1 3).filter (fun i => i != 2)).flatMap (fun i => [i])) := by
  exact C2_failed_page_abandoned
    (fun i => if i = 2 then FetchResult.failure else FetchResult.success [i])
    (fun i => [i]) "w2" 3 2 (by omega) (by omega) (by decide)
    (by
      intro i h1 h2 h3
      refine ⟨?_, by simp⟩
      simp only []
      rw [if_neg h3])

/-- C3: for every upstream behaviour (any number of failed pages, zero
records collected, `total_pages = 0`), a run whose export step succeeds ends
with status `"completed"` and produces an artifact; and no observable state
of any run, and no final state, ever carries the status string `"failed"`. -/
theorem C3_job_always_reaches_completed {α : Type} (u : Nat → FetchResult α)
    (job_id : String) (T : Nat) :
    (fetch_sfda_data u job_id T true).final.status = "completed" ∧
    ((fetch_sfda_data u job_id T true).artifact).isSome = true ∧
    (∀ eo : Bool, ∀ j ∈ (fetch_sfda_data u job_id T eo).trace, j.status ≠ "failed") ∧
    (∀ eo : Bool, (fetch_sfda_data u job_id T eo).final.status ≠ "failed") := by
  refine ⟨by rw [fetch_sfda_data_true_eq]; simp, by rw [fetch_sfda_data_true_eq]; rfl, ?_, ?_⟩
  · intro eo j hj
    obtain ⟨hstat, _⟩ := fetch_trace_mem u job_id T eo j hj
    rcases hstat with h | h | h <;> rw [h] <;> decide
  · intro eo
    cases eo with
    | false =>
      obtain ⟨⟨_, hs, _⟩, _⟩ := runPages_inv u T 1 ⟨jobSession T, [], 0, 0⟩ (by simp) _ rfl
      simp only [jobSession_status] at hs
      rw [fetch_sfda_data_false_eq]
      intro hbad
      rw [hs] at hbad
      exact absurd hbad (by decide)
    | true =>
      rw [fetch_sfda_data_true_eq]
      simp

/-- Witness for C3 at the spec's edge case `totalPages = 0`: the run
completes with an artifact of zero records, and no observed status is
`"failed"`. -/
theorem C3_job_always_reaches_completed_witness :
    (fetch_sfda_data (fun _ => FetchResult.success ([] : List Nat)) "w3" 0 true).final.status =
      "completed" ∧
    ((fetch_sfda_data (fun _ => FetchResult.success ([] : List Nat)) "w3" 0 true).artifact).isSome =
      true ∧
    (initJob 0).status ≠ "failed" ∧
    (fetch_sfda_data (fun _ => FetchResult.success ([] : List Nat)) "w3" 0 false).final.status ≠
      "failed" := by
  have h := C3_job_always_reaches_completed (fun _ => FetchResult.success ([] : List Nat)) "w3" 0
  exact ⟨h.1, h.2.1, h.2.2.1 true (initJob 0) (by decide), h.2.2.2 false⟩

/-- C4 as stated ("the `file` field is set if and only if the status equals
completed, in every observable state") fails on the code: line 97 sets
`job["status"] = "completed"` before line 98 sets `job["file"]`, so the state
between the two mutations has status `"completed"` and `file` still `None`.
Concrete run: an upstream whose page 1 is empty, `total_pages = 1`. -/
theorem C4_counterexample :
    ¬ (∀ j ∈ (fetch_sfda_data (fun _ => FetchResult.success ([] : List Nat)) "j" 1 true).trace,
        (j.file ≠ none ↔ j.status = "completed")) := by
  decide

/-- C4 amended: in every observable state, a set `file` field implies status
`"completed"` (and the file is the per-job export name); the final state of a
run with a successful export has status `"completed"` and the `file` set; a
run whose export fails leaves `file` unset.  The only deviation from the
claim is the single transient state between the status assignment (line 97)
and the file assignment (line 98), where status is already `"completed"`
while `file` is still `None`. -/
theorem C4_file_iff_completed_amended {α : Type} (u : Nat → FetchResult α)
    (job_id : String) (T : Nat) (eo : Bool) :
    (∀ j ∈ (fetch_sfda_data u job_id T eo).trace,
      j.file ≠ none → (j.status = "completed" ∧ j.file = some (exportFileName job_id))) ∧
    (eo = true → (fetch_sfda_data u job_id T eo).final.status = "completed" ∧
      (fetch_sfda_data u job_id T eo).final.file = some (exportFileName job_id)) ∧
    (eo = false → (fetch_sfda_data u job_id T eo).final.file = none) := by
  refine ⟨?_, ?_, ?_⟩
  · intro j hj
    exact (fetch_trace_mem u job_id T eo j hj).2.2.2.2
  · intro heo
    subst heo
    rw [fetch_sfda_data_true_eq]
    exact ⟨by simp, by simp⟩
  · intro heo
    subst heo
    rw [fetch_sfda_data_false_eq]
    obtain ⟨⟨_, _, hf⟩, _⟩ := runPages_inv u T 1 ⟨jobSession T, [], 0, 0⟩ (by simp) _ rfl
    simpa using hf

/-- Witness for the amended C4 on a concrete two-page run. -/
theorem C4_file_iff_completed_amended_witness :
    (fetch_sfda_data (fun i => FetchResult.success [i]) "w4" 2 true).final.status =
      "completed" ∧
    (fetch_sfda_data (fun i => FetchResult.success [i]) "w4" 2 true).final.file =
      some (exportFileName "w4") ∧
    ((initJob 2).file ≠ none → ((initJob 2).status = "completed" ∧
      (initJob 2).file = some (exportFileName "w4"))) := by
  have h := C4_file_iff_completed_amended (fun i => FetchResult.success [i]) "w4" 2 true
  exact ⟨(h.2.1 rfl).1, (h.2.1 rfl).2, h.1 (initJob 2) (by decide)⟩

/-- C5: `current_page` is 0 at creation (the first observable state is the
queued record with `current_page = 0`), never decreases across the run's
observable states, and never exceeds `total_pages` in any observable
state. -/
theorem C5_current_page_monotone_bounded {α : Type} (u : Nat → FetchResult α)
    (job_id : String) (T : Nat) (eo : Bool) :
    (initJob T).current_page = 0 ∧
    (fetch_sfda_data u job_id T eo).trace.head? = some (initJob T) ∧
    List.Pairwise (fun a b => a.current_page ≤ b.current_page)
      (fetch_sfda_data u job_id T eo).trace ∧
    ∀ j ∈ (fetch_sfda_data u job_id T eo).trace, j.current_page ≤ j.total_pages := by
  refine ⟨rfl, fetch_trace_head u job_id T eo, fetch_trace_pairwise u job_id T eo, ?_⟩
  intro j hj
  obtain ⟨_, _, htot, hcp, _⟩ := fetch_trace_mem u job_id T eo j hj
  omega

/-- Witness for C5 on a concrete two-page run. -/
theorem C5_current_page_monotone_bounded_witness :
    (initJob 2).current_page = 0 ∧
    (fetch_sfda_data (fun i => FetchResult.success [i]) "w5" 2 true).trace.head? =
      some (initJob 2) ∧
    List.Pairwise (fun a b => a.current_page ≤ b.current_page)
      (fetch_sfda_data (fun i => FetchResult.success [i]) "w5" 2 true).trace ∧
    (initJob 2).current_page ≤ (initJob 2).total_pages := by
  have h := C5_current_page_monotone_bounded (fun i => FetchResult.success [i]) "w5" 2 true
  exact ⟨h.1, h.2.1, h.2.2.1, h.2.2.2 (initJob 2) (by decide)⟩

/-- C6: when the export step (line 89) raises, no completed and no failed
transition happens: the final job state still has status `"running"` and no
`file`, no artifact exists, and no observable state of that run ever has
status `"completed"` or `"failed"`. -/
theorem C6_export_failure_leaves_state {α : Type} (u : Nat → FetchResult α)
    (job_id : String) (T : Nat) :
    (fetch_sfda_data u job_id T false).final.status = "running" ∧
    (fetch_sfda_data u job_id T false).final.file = none ∧
    (fetch_sfda_data u job_id T false).artifact = none ∧
    ∀ j ∈ (fetch_sfda_data u job_id T false).trace,
      j.status ≠ "completed" ∧ j.status ≠ "failed" := by
  obtain ⟨⟨ht, hs, hf⟩, _⟩ := runPages_inv u T 1 ⟨jobSession T, [], 0, 0⟩ (by simp) _ rfl
  simp only [jobSession_status, jobSession_file] at hs hf
  refine ⟨?_, ?_, ?_, ?_⟩
  · rw [fetch_sfda_data_false_eq]
    exact hs
  · rw [fetch_sfda_data_false_eq]
    exact hf
  · rw [fetch_sfda_data_false_eq]
  · intro j hj
    obtain ⟨_, hqr, _⟩ := fetch_trace_mem u job_id T false j hj
    rcases hqr rfl with h | h <;> rw [h] <;> exact ⟨by decide, by decide⟩

/-- Witness for C6 on a concrete one-page run whose export raises. -/
theorem C6_export_failure_leaves_state_witness :
    (fetch_sfda_data (fun _ => FetchResult.success ([] : List Nat)) "w6" 1 false).final.status =
      "running" ∧
    (fetch_sfda_data (fun _ => FetchResult.success ([] : List Nat)) "w6" 1 false).final.file =
      none ∧
    (fetch_sfda_data (fun _ => FetchResult.success ([] : List Nat)) "w6" 1 false).artifact =
      none ∧
    ((initJob 1).status ≠ "completed" ∧ (initJob 1).status ≠ "failed") := by
  have h := C6_export_failure_leaves_state (fun _ => FetchResult.success ([] : List Nat)) "w6" 1
  exact ⟨h.1, h.2.1, h.2.2.1, h.2.2.2 (initJob 1) (by decide)⟩

/-- C7: for a stored job whose status is not `"completed"`, the download
handler returns the `{"error": "File not ready"}` payload; for a stored job
whose status is `"completed"`, it serves the job's file under the fixed
declared filename `SFDA_Drugs_List.xlsx` and the spreadsheet media type. -/
theorem C7_download_gating (jobs : Store) (job_id : String) :
    (∀ j : Job, jobs job_id = some j → j.status ≠ "completed" →
      download jobs job_id = DownloadResponse.error "File not ready") ∧
    (∀ j : Job, jobs job_id = some j → j.status = "completed" →
      download jobs job_id =
        DownloadResponse.fileResponse j.file "SFDA_Drugs_List.xlsx" SPREADSHEET_MIME) := by
  constructor
  · intro j hj hs
    simp [download, hj, hs]
  · intro j hj hs
    simp [download, hj, hs]

/-- Witness for C7: one completed job is served with the fixed filename and
media type, one running job gets the not-ready payload. -/
theorem C7_download_gating_witness :
    download (fun id => if id = "a" then
        some ⟨"completed", 3, 3, "done", some "SFDA_Drugs_a.xlsx"⟩ else none) "a" =
      DownloadResponse.fileResponse (some "SFDA_Drugs_a.xlsx") "SFDA_Drugs_List.xlsx"
        SPREADSHEET_MIME ∧
    download (fun id => if id = "b" then
        some ⟨"running", 1, 3, "busy", none⟩ else none) "b" =
      DownloadResponse.error "File not ready" := by
  constructor
  · exact (C7_download_gating (fun id => if id = "a" then
      some ⟨"completed", 3, 3, "done", some "SFDA_Drugs_a.xlsx"⟩ else none) "a").2
      ⟨"completed", 3, 3, "done", some "SFDA_Drugs_a.xlsx"⟩ (by decide) (by decide)
  · exact (C7_download_gating (fun id => if id = "b" then
      some ⟨"running", 1, 3, "busy", none⟩ else none) "b").1
      ⟨"running", 1, 3, "busy", none⟩ (by decide) (by decide)

/-- C8: polling an unknown job id returns the `{"error": "Invalid job id"}`
payload (the handler is a total function, so it never raises), leaves the
store unchanged, and polling again gives the same result. -/
theorem C8_status_poll_unknown_id (jobs : Store) (job_id : String)
    (h : jobs job_id = none) :
    (job_status jobs job_id).1 = StatusPayload.error "Invalid job id" ∧
    (job_status jobs job_id).2 = jobs ∧
    job_status ((job_status jobs job_id).2) job_id = job_status jobs job_id := by
  refine ⟨?_, rfl, rfl⟩
  simp [job_status, h]

/-- Witness for C8 on the empty store. -/
theorem C8_status_poll_unknown_id_witness :
    (job_status (fun _ => none) "nope").1 = StatusPayload.error "Invalid job id" ∧
    (job_status (fun _ => none) "nope").2 = (fun _ => none : Store) ∧
    job_status ((job_status (fun _ => none) "nope").2) "nope" =
      job_status (fun _ => none) "nope" := by
  exact C8_status_poll_unknown_id (fun _ => none) "nope" rfl

/-- C9: the page fetcher's retry configuration (lines 38-48, 63): a retry
budget of 5 (total, connect and read), exponential backoff factor 2, retried
statuses exactly {429, 500, 502, 503, 504}, only GET requests retried, and a
per-request timeout of 30. -/
theorem C9_retry_configuration :
    retries.total = 5 ∧ retries.connect = 5 ∧ retries.read = 5 ∧
    retries.backoff_factor = 2 ∧
    retries.status_forcelist = [429, 500, 502, 503, 504] ∧
    retries.allowed_methods = ["GET"] ∧
    (∀ s : Nat, retries.retriesStatus "GET" s = true ↔
      (s = 429 ∨ s = 500 ∨ s = 502 ∨ s = 503 ∨ s = 504)) ∧
    (∀ m : String, ∀ s : Nat, m ≠ "GET" → retries.retriesStatus m s = false) ∧
    REQUEST_TIMEOUT = 30 := by
  refine ⟨rfl, rfl, rfl, rfl, rfl, rfl, ?_, ?_, rfl⟩
  · intro s
    simp [RetryPolicy.retriesStatus, retries]
  · intro m s hm
    simp [RetryPolicy.retriesStatus, retries, hm]

/-- Witness for C9: 429 on GET is retried, 500 on POST is not. -/
theorem C9_retry_configuration_witness :
    retries.retriesStatus "GET" 429 = true ∧
    retries.retriesStatus "POST" 500 = false ∧
    REQUEST_TIMEOUT = 30 := by
  obtain ⟨-, -, -, -, -, -, h7, h8, h9⟩ := C9_retry_configuration
  exact ⟨(h7 429).mpr (Or.inl rfl), h8 "POST" 500 (by decide), h9⟩

/-- C10: for an id absent from the store, the download handler answers with
the `{"error": "File not ready"}` payload — not the `{"error": "Invalid job
id"}` payload the status handler uses — and this is the same response a
known-but-unfinished job gets, so the download endpoint cannot distinguish
the two cases. -/
theorem C10_download_conflates_unknown_and_unfinished (jobs jobs2 : Store)
    (job_id : String) (h : jobs job_id = none) (j : Job)
    (h2 : jobs2 job_id = some j) (h3 : j.status ≠ "completed") :
    download jobs job_id = DownloadResponse.error "File not ready" ∧
    (job_status jobs job_id).1 = StatusPayload.error "Invalid job id" ∧
    "File not ready" ≠ "Invalid job id" ∧
    download jobs job_id = download jobs2 job_id := by
  refine ⟨?_, ?_, by decide, ?_⟩
  · simp [download, h]
  · simp [job_status, h]
  · simp [download, h, h2, h3]

/-- Witness for C10: the empty store versus a store holding one running
job under the polled id. -/
theorem C10_download_conflates_witness :
    download (fun _ => none) "x" = DownloadResponse.error "File not ready" ∧
    (job_status (fun _ => none) "x").1 = StatusPayload.error "Invalid job id" ∧
    "File not ready" ≠ "Invalid job id" ∧
    download (fun _ => none) "x" =
      download (fun id => if id = "x" then some ⟨"running", 0, 3, "busy", none⟩ else none) "x" := by
  exact C10_download_conflates_unknown_and_unfinished (fun _ => none)
    (fun id => if id = "x" then some ⟨"running", 0, 3, "busy", none⟩ else none) "x" rfl
    ⟨"running", 0, 3, "busy", none⟩ (by decide) (by decide)
